import Mathlib

/-!
Shallow embedding of `registry-rs` (`src/key.rs`) in Lean 4.

The crate is a safe wrapper over a hierarchical key/value registry store.
`src/key.rs` holds the key-handle type `RegKey`, its error taxonomy, and the
wrappers `open_hkey` / `create_hkey` / `delete_hkey` around the store
primitives.  The store primitives themselves (the OS registry calls), the
`Security` bitmask (`src/sec.rs`), the value codec (`src/value.rs`) and the
iterators (`src/iter.rs`) are external collaborators or repository files not
present under `src/`; those are modelled from the specification and marked as
such in their doc comments.  Everything else is translated directly from
`src/key.rs`.
-/

namespace Registry

/-! ## Strings and the encoding collaborator (`utfx`) -/

/-- A `utfx::U16CString` without its trailing terminator: the list of 16-bit
code units.  When built from a Rust string it contains no nul unit. -/
abbrev U16CString := List Nat

/-- The encoding collaborator's conversion of a Rust string to UTF-16 code
units, simplified to one unit per scalar value. -/
def encodeStr (s : String) : List Nat := s.data.map Char.toNat

/-- Whether a single code unit is a valid Unicode scalar value (not an
unpaired surrogate, within range). -/
def validUnit (u : Nat) : Bool := u < 0xd800 || (0xe000 ≤ u && u < 0x110000)

/-- `U16CString::to_string`: decode code units back into a string, failing
(`Err` in the source) when some unit is not a valid scalar value. -/
def decodeU16 (us : List Nat) : Option String :=
  if us.all validUnit then some (String.mk (us.map Char.ofNat)) else none

/-- `path.to_string().unwrap_or_else(|_| "<unknown>".into())`, the decoded
attempted path with the placeholder fallback used on every error path of
`open_hkey`, `create_hkey` and `delete_hkey`. -/
def decodeOrUnknown (us : List Nat) : String := (decodeU16 us).getD "<unknown>"

/-- `U16CString::to_string_lossy`, used by `impl Display for RegKey`: invalid
units are replaced by the replacement character. -/
def decodeLossy (us : List Nat) : String :=
  String.mk (us.map fun u => if validUnit u then Char.ofNat u else Char.ofNat 0xfffd)

/-- `TryInto<U16CString>` for string input (utfx `from_str`): fails with a
`NulError` when the encoded string contains an embedded nul unit. -/
def tryIntoU16 (s : String) : Except Unit U16CString :=
  if (encodeStr s).contains 0 then .error () else .ok (encodeStr s)

/-- Rust's `std::convert::Infallible`: an uninhabited type, the conversion
error of path types whose conversion to `U16CString` cannot fail. -/
inductive Infallible : Type

/-- `TryInto<U16CString> for U16CString`, the identity conversion whose error
type is `Infallible`. -/
def tryIntoU16Self (p : U16CString) : Except Infallible U16CString := .ok p

/-! ## Security descriptor -/

/-- Modelled from the spec: `Security` (`src/sec.rs` is not under `src/`) is an
opaque access bitmask composed via bitwise-OR; `bits()` returns the raw mask.
We keep only the raw mask. -/
abbrev Security := Nat

/-! ## Error taxonomy (`key::Error`) and the shared status classification -/

/-- `key::Error`.  `NotFound`, `PermissionDenied` and `Unknown` carry the
attempted path string and the underlying raw OS status (the payload of the
`std::io::Error` they wrap); `InvalidNul` wraps the encoding failure. -/
inductive Error : Type where
  | NotFound (path : String) (code : Nat)
  | PermissionDenied (path : String) (code : Nat)
  | InvalidNul
  | Unknown (path : String) (code : Nat)
deriving DecidableEq, Repr

/-- `impl From<Infallible> for Error` (src/key.rs:32): the body is
`unreachable_unchecked`, which is sound exactly because `Infallible` has no
values; in Lean the empty match realises the same conversion. -/
def Error.fromInfallible : Infallible → Error := fun i => nomatch i

/-- The classification of an `std::io::ErrorKind` as used by `key.rs`: the
match arms distinguish `NotFound`, `PermissionDenied`, and everything else. -/
inductive ErrKind : Type where
  | notFound
  | permissionDenied
  | other
deriving DecidableEq, Repr

/-- Modelled from the spec: the Rust standard library collaborator
`std::io::Error::from_raw_os_error(code).kind()` on Windows.  Codes 2
(`ERROR_FILE_NOT_FOUND`) and 3 (`ERROR_PATH_NOT_FOUND`) classify as
`NotFound`, 5 (`ERROR_ACCESS_DENIED`) as `PermissionDenied`, everything else
falls into the catch-all class. -/
def ioErrorKind (code : Nat) : ErrKind :=
  if code = 2 || code = 3 then .notFound
  else if code = 5 then .permissionDenied
  else .other

/-- The shared error translation repeated verbatim on every store-failure path
of `open_hkey`, `create_hkey`, `delete_hkey` and `open_current_user`
(src/key.rs:173-179 etc.): match on the io error kind, attach the attempted
path string and keep the raw status. -/
def mapStatus (code : Nat) (pathStr : String) : Error :=
  match ioErrorKind code with
  | .notFound => .NotFound pathStr code
  | .permissionDenied => .PermissionDenied pathStr code
  | .other => .Unknown pathStr code

/-! ## The store collaborator

The OS registry itself is an external collaborator (spec §6).  We model it as
an explicit state: the set of existing absolute key paths, an access-control
oracle, the table of live native handles, the stored values, and a log of
close-handle invocations (so that release-exactly-once is statable). -/

/-- An absolute key path: the chain of path segments from the root. -/
abbrev AbsPath := List (List Nat)

/-- Split a relative path string on the backslash separator (code unit 92);
the empty string yields no segments, as used by `delete_self`. -/
def splitPathAux : List Nat → List Nat → AbsPath
  | [], acc => [acc.reverse]
  | u :: rest, acc =>
    if u = 92 then acc.reverse :: splitPathAux rest []
    else splitPathAux rest (u :: acc)

/-- Split a relative path into its segments (empty path: no segments). -/
def splitPath (us : List Nat) : AbsPath :=
  if us.isEmpty then [] else splitPathAux us []

/-- Modelled from the spec: a typed registry value, a (type tag, payload)
pair handled by the value codec collaborator (`src/value.rs` is not under
`src/`). -/
structure ValData where
  tag : Nat
  payload : List Nat
deriving DecidableEq, Repr

/-- Raw OS status: object/path not found (`ERROR_FILE_NOT_FOUND`). -/
def statusNotFound : Nat := 2

/-- Raw OS status: access denied (`ERROR_ACCESS_DENIED`). -/
def statusAccessDenied : Nat := 5

/-- Raw OS status: the handle is invalid (`ERROR_INVALID_HANDLE`). -/
def statusInvalidHandle : Nat := 6

/-- Raw OS status returned by the non-recursive delete primitive when the key
still has children (`ERROR_DIR_NOT_EMPTY`); it is in neither the not-found
nor the permission class, so the shared mapping surfaces it as `Unknown`. -/
def statusNotEmpty : Nat := 145

/-- Modelled from the spec (§6 store primitives): the registry store state.
`keys` is the set of existing absolute key paths (the root `[]` is present in
a well-formed store), `granted` the access-control oracle for opening and
creating with a given access mask, `delGranted` the oracle for deletion,
`handles` the table of live native handles, `vals` the stored values,
`closed` the log of close-handle invocations, and `cuFail` reports whether
opening the current identity's root fails for a given access mask. -/
structure Store where
  keys : List AbsPath
  granted : AbsPath → Security → Bool
  delGranted : AbsPath → Bool
  handles : List (Nat × AbsPath)
  vals : List (AbsPath × List Nat × ValData)
  nextHandle : Nat
  closed : List Nat
  cuFail : Security → Option Nat

/-- Resolve a native handle to the absolute path it was opened at. -/
def Store.lookupHandle (st : Store) (h : Nat) : Option AbsPath :=
  (st.handles.find? fun e => e.1 == h).map Prod.snd

/-- Whether a key has at least one strictly deeper key below it. -/
def Store.hasChild (st : Store) (p : AbsPath) : Bool :=
  st.keys.any fun q => p.isPrefixOf q && p.length < q.length

/-- All handles ever allocated are below the allocation counter: holds for
every store reachable from a fresh one, and makes newly allocated handles
distinct from live ones. -/
def Store.wfHandles (st : Store) : Prop :=
  ∀ e ∈ st.handles, e.1 < st.nextHandle

instance (st : Store) : Decidable st.wfHandles := by
  unfold Store.wfHandles; infer_instance

/-- Modelled from the spec: `open-path(base, rel, access) → handle | status`
(`RegOpenKeyExW`).  Fails with the invalid-handle status on a dead base
handle, the not-found status when the resolved path does not exist, the
access-denied status when the requested rights are not granted; otherwise
allocates a fresh native handle at the resolved path. -/
def Store.openPath (st : Store) (base : Nat) (rel : U16CString) (sec : Security) :
    Except Nat Nat × Store :=
  match st.lookupHandle base with
  | none => (.error statusInvalidHandle, st)
  | some bp =>
    let abs := bp ++ splitPath rel
    if st.keys.contains abs then
      if st.granted abs sec then
        (.ok st.nextHandle,
          { st with handles := (st.nextHandle, abs) :: st.handles,
                    nextHandle := st.nextHandle + 1 })
      else (.error statusAccessDenied, st)
    else (.error statusNotFound, st)

/-- The base path extended by each prefix of the relative segments: the keys
a create call materialises when absent. -/
def prefixChain (bp : AbsPath) (segs : AbsPath) : List AbsPath :=
  (List.range (segs.length + 1)).map fun i => bp ++ segs.take i

/-- Modelled from the spec: `create-path(base, rel, access) → handle | status`
(`RegCreateKeyExW`).  Creates intermediate and final keys when absent,
opens the existing key when present, always allocating a fresh handle;
subject to the same access oracle as open. -/
def Store.createPath (st : Store) (base : Nat) (rel : U16CString) (sec : Security) :
    Except Nat Nat × Store :=
  match st.lookupHandle base with
  | none => (.error statusInvalidHandle, st)
  | some bp =>
    let abs := bp ++ splitPath rel
    if st.granted abs sec then
      let fresh := (prefixChain bp (splitPath rel)).filter fun q => !st.keys.contains q
      (.ok st.nextHandle,
        { st with keys := st.keys ++ fresh,
                  handles := (st.nextHandle, abs) :: st.handles,
                  nextHandle := st.nextHandle + 1 })
    else (.error statusAccessDenied, st)

/-- Modelled from the spec: `delete-path(base, rel) → status`
(`RegDeleteKeyW`): removes only the resolved key and only when it has no
children, failing with the store's native not-empty status otherwise. -/
def Store.deletePath (st : Store) (base : Nat) (rel : U16CString) :
    Except Nat Unit × Store :=
  match st.lookupHandle base with
  | none => (.error statusInvalidHandle, st)
  | some bp =>
    let abs := bp ++ splitPath rel
    if st.keys.contains abs then
      if st.delGranted abs then
        if st.hasChild abs then (.error statusNotEmpty, st)
        else (.ok (), { st with keys := st.keys.filter fun q => !(q == abs) })
      else (.error statusAccessDenied, st)
    else (.error statusNotFound, st)

/-- Modelled from the spec: `delete-subtree(base, rel) → status`
(`RegDeleteTreeW`): a single request removing the resolved key and its entire
subtree. -/
def Store.deleteTree (st : Store) (base : Nat) (rel : U16CString) :
    Except Nat Unit × Store :=
  match st.lookupHandle base with
  | none => (.error statusInvalidHandle, st)
  | some bp =>
    let abs := bp ++ splitPath rel
    if st.keys.contains abs then
      if st.delGranted abs then
        (.ok (), { st with keys := st.keys.filter fun q => !(List.isPrefixOf abs q) })
      else (.error statusAccessDenied, st)
    else (.error statusNotFound, st)

/-- Modelled from the spec: `close-handle(handle) → status (errors ignored)`
(`RegCloseKey`).  Every invocation is logged in `closed`; a dead handle
reports the invalid-handle status, which callers ignore. -/
def Store.closeHandle (st : Store) (h : Nat) : Nat × Store :=
  match st.lookupHandle h with
  | some _ =>
    (0, { st with handles := st.handles.filter fun e => !(e.1 == h),
                  closed := h :: st.closed })
  | none => (statusInvalidHandle, { st with closed := h :: st.closed })

/-- Modelled from the spec: `open-current-identity-root(access) → handle |
status` (`RegOpenCurrentUser`): succeeds or fails purely on access
rights/availability, reported by the `cuFail` oracle; on success a fresh
handle rooted at the identity's profile root is allocated. -/
def Store.openCurrentUser (st : Store) (sec : Security) : Except Nat Nat × Store :=
  match st.cuFail sec with
  | some code => (.error code, st)
  | none =>
    (.ok st.nextHandle,
      { st with handles := (st.nextHandle, []) :: st.handles,
                nextHandle := st.nextHandle + 1 })

/-- Modelled from the spec: `query-value(base, name) → (type, payload) |
status`. -/
def Store.queryValue (st : Store) (base : Nat) (name : U16CString) :
    Except Nat ValData × Store :=
  match st.lookupHandle base with
  | none => (.error statusInvalidHandle, st)
  | some bp =>
    match st.vals.find? (fun e => e.1 == bp && e.2.1 == name) with
    | some e => (.ok e.2.2, st)
    | none => (.error statusNotFound, st)

/-- Modelled from the spec: `set-value(base, name, type, payload) → status`,
creating or overwriting the named value. -/
def Store.setValue (st : Store) (base : Nat) (name : U16CString) (d : ValData) :
    Except Nat Unit × Store :=
  match st.lookupHandle base with
  | none => (.error statusInvalidHandle, st)
  | some bp =>
    (.ok (),
      { st with vals :=
          (bp, name, d) :: st.vals.filter fun e => !(e.1 == bp && e.2.1 == name) })

/-- Modelled from the spec: `delete-value(base, name) → status`, failing with
the not-found status when the name is absent. -/
def Store.deleteValue (st : Store) (base : Nat) (name : U16CString) :
    Except Nat Unit × Store :=
  match st.lookupHandle base with
  | none => (.error statusInvalidHandle, st)
  | some bp =>
    if st.vals.any (fun e => e.1 == bp && e.2.1 == name) then
      (.ok (), { st with vals := st.vals.filter fun e => !(e.1 == bp && e.2.1 == name) })
    else (.error statusNotFound, st)

/-! ## The wrappers of `src/key.rs` -/

/-- `open_hkey` (src/key.rs:161-180): call the open primitive; a zero status
returns the fresh handle, a nonzero status is classified by the shared
translation with the decoded attempted path (placeholder on decode failure). -/
def open_hkey (st : Store) (base : Nat) (path : U16CString) (sec : Security) :
    Except Error Nat × Store :=
  let (r, st') := st.openPath base path sec
  match r with
  | .ok h => (.ok h, st')
  | .error code => (.error (mapStatus code (decodeOrUnknown path)), st')

/-- `create_hkey` (src/key.rs:209-240): call the create primitive; error
handling identical to `open_hkey`. -/
def create_hkey (st : Store) (base : Nat) (path : U16CString) (sec : Security) :
    Except Error Nat × Store :=
  let (r, st') := st.createPath base path sec
  match r with
  | .ok h => (.ok h, st')
  | .error code => (.error (mapStatus code (decodeOrUnknown path)), st')

/-- `delete_hkey` (src/key.rs:183-206): dispatch on `is_recursive` to the
delete-subtree or delete-path primitive; error handling identical to
`open_hkey`. -/
def delete_hkey (st : Store) (base : Nat) (path : U16CString) (isRecursive : Bool) :
    Except Error Unit × Store :=
  let (r, st') :=
    if isRecursive then st.deleteTree base path else st.deletePath base path
  match r with
  | .ok _ => (.ok (), st')
  | .error code => (.error (mapStatus code (decodeOrUnknown path)), st')

/-! ## `RegKey` -/

/-- The safe representation of a registry key handle (src/key.rs:40-43): the
owned native handle plus the path string recorded for diagnostics. -/
structure RegKey where
  handle : Nat
  path : U16CString
deriving DecidableEq, Repr

/-- `impl Display for RegKey` (src/key.rs:45-49): renders the stored path via
the lossy decoding. -/
def RegKey.display (k : RegKey) : String := decodeLossy k.path

/-- `impl Drop for RegKey` (src/key.rs:51-56): unconditionally invoke the
close primitive on the owned handle, discarding its status ("no point
checking the return value here"). -/
def RegKey.dropKey (st : Store) (k : RegKey) : Store :=
  (st.closeHandle k.handle).2

/-- `RegKey::open` (src/key.rs:60-67) instantiated at string input: convert
the path (propagating the conversion error), then `open_hkey`, wrapping a
fresh handle together with the converted path. -/
def RegKey.openKey (st : Store) (k : RegKey) (p : String) (sec : Security) :
    Except Error RegKey × Store :=
  match tryIntoU16 p with
  | .error _ => (.error .InvalidNul, st)
  | .ok path =>
    let (r, st') := open_hkey st k.handle path sec
    (r.map fun h => ⟨h, path⟩, st')

/-- `RegKey::open` instantiated at `U16CString` input, whose conversion error
is `Infallible`: the `map_err(Into::into)` arm would go through
`Error.fromInfallible`. -/
def RegKey.openKeyU16 (st : Store) (k : RegKey) (p : U16CString) (sec : Security) :
    Except Error RegKey × Store :=
  match tryIntoU16Self p with
  | .error i => (.error (Error.fromInfallible i), st)
  | .ok path =>
    let (r, st') := open_hkey st k.handle path sec
    (r.map fun h => ⟨h, path⟩, st')

/-- `RegKey::create` (src/key.rs:70-77) instantiated at string input. -/
def RegKey.create (st : Store) (k : RegKey) (p : String) (sec : Security) :
    Except Error RegKey × Store :=
  match tryIntoU16 p with
  | .error _ => (.error .InvalidNul, st)
  | .ok path =>
    let (r, st') := create_hkey st k.handle path sec
    (r.map fun h => ⟨h, path⟩, st')

/-- `RegKey::delete` (src/key.rs:80-87) instantiated at string input. -/
def RegKey.delete (st : Store) (k : RegKey) (p : String) (isRecursive : Bool) :
    Except Error Unit × Store :=
  match tryIntoU16 p with
  | .error _ => (.error .InvalidNul, st)
  | .ok path => delete_hkey st k.handle path isRecursive

/-- `RegKey::delete_self` (src/key.rs:90-92): `delete_hkey` on the empty
relative path (`U16CString::default()`).  The method consumes `self`, so the
key is dropped — closing the handle — when the call returns, whether or not
the deletion succeeded. -/
def RegKey.delete_self (st : Store) (k : RegKey) (isRecursive : Bool) :
    Except Error Unit × Store :=
  let (r, st') := delete_hkey st k.handle [] isRecursive
  (r, RegKey.dropKey st' k)

/-- `RegKey::open_current_user` (src/key.rs:137-157): the current-identity
primitive; on success the stored diagnostic path is the literal
`"<Current User>"`, on failure the shared classification is applied with the
literal `"<current user>"` as attempted path. -/
def RegKey.open_current_user (st : Store) (sec : Security) :
    Except Error RegKey × Store :=
  let (r, st') := st.openCurrentUser sec
  match r with
  | .ok h => (.ok ⟨h, encodeStr "<Current User>"⟩, st')
  | .error code => (.error (mapStatus code "<current user>"), st')

/-! ## Value operations and iterators (collaborator files not under `src/`) -/

/-- Modelled from the spec: `value::Error` (`src/value.rs` is not under
`src/`) — the value operations' own error type, with at least a not-found
class, an encoding class and a catch-all carrying the raw status. -/
inductive VError : Type where
  | NotFound
  | InvalidNul
  | Unknown (code : Nat)
deriving DecidableEq, Repr

/-- Modelled from the spec: the status classification used by the value
operations. -/
def mapVStatus (code : Nat) : VError :=
  match ioErrorKind code with
  | .notFound => .NotFound
  | _ => .Unknown code

/-- `RegKey::value` (src/key.rs:95-101), delegating to the spec-modelled
`value::query_value` on `self.handle`. -/
def RegKey.value (st : Store) (k : RegKey) (name : String) :
    Except VError ValData × Store :=
  match tryIntoU16 name with
  | .error _ => (.error .InvalidNul, st)
  | .ok n =>
    let (r, st') := st.queryValue k.handle n
    match r with
    | .ok d => (.ok d, st')
    | .error code => (.error (mapVStatus code), st')

/-- `RegKey::set_value` (src/key.rs:113-119), delegating to the spec-modelled
`value::set_value` on `self.handle`. -/
def RegKey.set_value (st : Store) (k : RegKey) (name : String) (d : ValData) :
    Except VError Unit × Store :=
  match tryIntoU16 name with
  | .error _ => (.error .InvalidNul, st)
  | .ok n =>
    let (r, st') := st.setValue k.handle n d
    match r with
    | .ok _ => (.ok (), st')
    | .error code => (.error (mapVStatus code), st')

/-- `RegKey::delete_value` (src/key.rs:104-110), delegating to the
spec-modelled `value::delete_value` on `self.handle`. -/
def RegKey.delete_value (st : Store) (k : RegKey) (name : String) :
    Except VError Unit × Store :=
  match tryIntoU16 name with
  | .error _ => (.error .InvalidNul, st)
  | .ok n =>
    let (r, st') := st.deleteValue k.handle n
    match r with
    | .ok _ => (.ok (), st')
    | .error code => (.error (mapVStatus code), st')

/-- Modelled from the spec: the key-enumeration iterator (`src/iter.rs` is not
under `src/`): a borrowed parent handle, a zero-based cursor, an exhausted
flag; initial state `Positioned(0)`. -/
structure Keys where
  parent : Nat
  index : Nat
  exhausted : Bool
deriving DecidableEq, Repr

/-- Modelled from the spec: `iter::Keys::new` records the borrowed parent and
the initial cursor; the spec gives its construction no failing case, so the
`Result` it returns is always `Ok`. -/
def Keys.new (k : RegKey) : Except Error Keys := .ok ⟨k.handle, 0, false⟩

/-- Modelled from the spec: the value-enumeration iterator, same state machine
as `Keys`. -/
structure Values where
  parent : Nat
  index : Nat
  exhausted : Bool
deriving DecidableEq, Repr

/-- Modelled from the spec: `iter::Values::new`, same shape as `Keys.new`. -/
def Values.new (k : RegKey) : Except Error Values := .ok ⟨k.handle, 0, false⟩

/-- The outcome of a call that returns its value directly and aborts by
panicking on the impossible branch (`unreachable!`). -/
inductive PanicOr (α : Type) : Type where
  | ok (a : α)
  | panicked
deriving DecidableEq, Repr

/-- `RegKey::keys` (src/key.rs:122-127): match on `iter::Keys::new`, return
the iterator directly, and assert the error branch unreachable — a panic,
not a recoverable error. -/
def RegKey.keys (k : RegKey) : PanicOr Keys :=
  match Keys.new k with
  | .ok v => .ok v
  | .error _ => .panicked

/-- `RegKey::values` (src/key.rs:130-135): same shape as `RegKey::keys`. -/
def RegKey.values (k : RegKey) : PanicOr Values :=
  match Values.new k with
  | .ok v => .ok v
  | .error _ => .panicked

/-! ## A concrete store for evaluating the development -/

/-- A small concrete store: the root key `[]` with child `a` and grandchild
`a\b`, one live handle (0) at the root, everything access-granted. -/
def sampleStore : Store where
  keys := [[], [[97]], [[97], [98]]]
  granted := fun _ _ => true
  delGranted := fun _ => true
  handles := [(0, [])]
  vals := []
  nextHandle := 1
  closed := []
  cuFail := fun _ => none

/-- The live root handle of `sampleStore`. -/
def rootKey : RegKey := ⟨0, []⟩

/-- `sampleStore` with the current-identity root unavailable (status 5). -/
def sampleStoreCuFail : Store := { sampleStore with cuFail := fun _ => some 5 }

/-! ## Encoding round-trip lemmas -/

/-- Every Lean character is a valid scalar value, hence a valid code unit. -/
theorem validUnit_toNat (c : Char) : validUnit c.toNat = true := by
  rcases c.valid with h | h <;>
    simp only [validUnit, Char.toNat, Bool.or_eq_true, Bool.and_eq_true,
      decide_eq_true_eq] <;> omega

/-- Decoding inverts the encoding collaborator on every Rust string. -/
theorem decodeU16_encode (s : String) : decodeU16 (encodeStr s) = some s := by
  unfold decodeU16 encodeStr
  rw [if_pos]
  · obtain ⟨data⟩ := s
    simp [List.map_map, Function.comp_def, Char.ofNat_toNat]
  · simp only [List.all_eq_true, List.mem_map]
    rintro u ⟨c, _, rfl⟩
    exact validUnit_toNat c

/-- The decoded attempted path of a validly encoded string is the string. -/
theorem decodeOrUnknown_encode (s : String) : decodeOrUnknown (encodeStr s) = s := by
  simp [decodeOrUnknown, decodeU16_encode]

/-- The placeholder is attached exactly when decoding fails. -/
theorem decodeOrUnknown_of_fail (us : List Nat) (h : decodeU16 us = none) :
    decodeOrUnknown us = "<unknown>" := by
  simp [decodeOrUnknown, h]

/-- The lossy display decoding also inverts the encoding. -/
theorem decodeLossy_encode (s : String) : decodeLossy (encodeStr s) = s := by
  unfold decodeLossy encodeStr
  obtain ⟨data⟩ := s
  simp only [List.map_map]
  have : (fun u => if validUnit u then Char.ofNat u else Char.ofNat 0xfffd) ∘ Char.toNat
      = fun c => c := by
    funext c
    simp [Function.comp_def, validUnit_toNat c, Char.ofNat_toNat]
  simp [this]

/-! ## Store frame lemmas -/

/-- The non-recursive delete primitive only touches the key set. -/
theorem deletePath_frame (st : Store) (b : Nat) (r : U16CString) :
    (st.deletePath b r).2.handles = st.handles
    ∧ (st.deletePath b r).2.closed = st.closed
    ∧ (st.deletePath b r).2.granted = st.granted
    ∧ (st.deletePath b r).2.delGranted = st.delGranted
    ∧ (st.deletePath b r).2.nextHandle = st.nextHandle
    ∧ (st.deletePath b r).2.vals = st.vals := by
  unfold Store.deletePath
  cases h : st.lookupHandle b
  · exact ⟨rfl, rfl, rfl, rfl, rfl, rfl⟩
  · refine ⟨?_, ?_, ?_, ?_, ?_, ?_⟩ <;>
      (dsimp only; split <;> (try split) <;> (try split) <;> rfl)

/-- The recursive delete primitive only touches the key set. -/
theorem deleteTree_frame (st : Store) (b : Nat) (r : U16CString) :
    (st.deleteTree b r).2.handles = st.handles
    ∧ (st.deleteTree b r).2.closed = st.closed
    ∧ (st.deleteTree b r).2.granted = st.granted
    ∧ (st.deleteTree b r).2.delGranted = st.delGranted
    ∧ (st.deleteTree b r).2.nextHandle = st.nextHandle
    ∧ (st.deleteTree b r).2.vals = st.vals := by
  unfold Store.deleteTree
  cases h : st.lookupHandle b
  · exact ⟨rfl, rfl, rfl, rfl, rfl, rfl⟩
  · refine ⟨?_, ?_, ?_, ?_, ?_, ?_⟩ <;>
      (dsimp only; split <;> (try split) <;> rfl)

/-- `delete_hkey` never touches the handle table nor the close log. -/
theorem delete_hkey_frame (st : Store) (b : Nat) (r : U16CString) (rec : Bool) :
    (delete_hkey st b r rec).2.handles = st.handles
    ∧ (delete_hkey st b r rec).2.closed = st.closed := by
  unfold delete_hkey
  cases rec
  · rcases h : st.deletePath b r with ⟨res, st2⟩
    have hf := deletePath_frame st b r
    rw [h] at hf
    cases res <;> exact ⟨hf.1, hf.2.1⟩
  · rcases h : st.deleteTree b r with ⟨res, st2⟩
    have hf := deleteTree_frame st b r
    rw [h] at hf
    cases res <;> exact ⟨hf.1, hf.2.1⟩

/-- A live handle is strictly below the allocation counter. -/
theorem lookupHandle_lt (st : Store) (h : Nat) (q : AbsPath) (hwf : st.wfHandles)
    (hl : st.lookupHandle h = some q) : h < st.nextHandle := by
  unfold Store.lookupHandle at hl
  cases hf : st.handles.find? (fun e => e.1 == h) with
  | none => rw [hf] at hl; simp at hl
  | some e =>
    have hm := List.mem_of_find?_eq_some hf
    have hp := List.find?_some hf
    have he : e.1 = h := by simpa using hp
    have := hwf e hm
    omega

/-- Prepending a fresh entry does not change the lookup of a distinct handle. -/
theorem lookupHandle_prepend (st : Store) (n h : Nat) (p : AbsPath) (hne : h ≠ n)
    (keys' : List AbsPath) (vals' : List (AbsPath × List Nat × ValData)) :
    Store.lookupHandle
      { st with keys := keys', vals := vals',
                handles := (n, p) :: st.handles, nextHandle := st.nextHandle + 1 } h
      = st.lookupHandle h := by
  unfold Store.lookupHandle
  have : ((n, p).1 == h) = false := by
    simp only [beq_eq_false_iff_ne, ne_eq]
    exact fun hc => hne hc.symm
  rw [List.find?_cons_of_neg _ (by simp [this])]

/-- The shared classification never produces the encoding error. -/
theorem mapStatus_ne_invalidNul (code : Nat) (s : String) :
    mapStatus code s ≠ .InvalidNul := by
  unfold mapStatus
  cases h : ioErrorKind code <;> simp

/-- `open_hkey` never fails with the encoding error: its errors all come from
the shared status classification. -/
theorem open_hkey_ne_invalidNul (st : Store) (base : Nat) (p : U16CString)
    (sec : Security) : (open_hkey st base p sec).1 ≠ .error .InvalidNul := by
  unfold open_hkey
  rcases h : st.openPath base p sec with ⟨r, st2⟩
  cases r with
  | error code => simpa using mapStatus_ne_invalidNul code (decodeOrUnknown p)
  | ok v => simp

/-! ## Claim theorems -/

/-- C2: the native handle of a `RegKey` is released exactly once on every exit
path: dropping the key invokes the close primitive exactly once on its handle
(after which the handle is no longer live), the close status is discarded
rather than surfaced (`dropKey` has no error channel and `delete_self`
returns exactly the deletion result), and `delete_self` consumes the key so
that — whether or not the deletion succeeded — the handle is closed exactly
once when the call returns. -/
theorem regKey_handle_released_exactly_once (st : Store) (k : RegKey) (rec : Bool) :
    (RegKey.dropKey st k).closed.count k.handle = st.closed.count k.handle + 1
    ∧ (RegKey.dropKey st k).lookupHandle k.handle = none
    ∧ ((RegKey.delete_self st k rec).2.closed.count k.handle
        = st.closed.count k.handle + 1)
    ∧ (RegKey.delete_self st k rec).1 = (delete_hkey st k.handle [] rec).1 := by
  have hclose : ∀ s : Store,
      (RegKey.dropKey s k).closed.count k.handle = s.closed.count k.handle + 1 := by
    intro s
    unfold RegKey.dropKey Store.closeHandle
    cases h : s.lookupHandle k.handle <;> simp
  refine ⟨hclose st, ?_, ?_, ?_⟩
  · unfold RegKey.dropKey Store.closeHandle
    cases h : st.lookupHandle k.handle with
    | none => simpa [Store.lookupHandle] using h
    | some bp =>
      simp only [Store.lookupHandle]
      have hn : (List.find? (fun e => e.1 == k.handle)
          (st.handles.filter fun e => !(e.1 == k.handle))) = none := by
        rw [List.find?_eq_none]
        intro x hx
        have := (List.mem_filter.mp hx).2
        simp_all
      rw [hn]
      rfl
  · unfold RegKey.delete_self
    rcases h : delete_hkey st k.handle [] rec with ⟨r, st2⟩
    have hf := delete_hkey_frame st k.handle [] rec
    rw [h] at hf
    have hcl : st2.closed = st.closed := hf.2
    show List.count k.handle (RegKey.dropKey st2 k).closed
        = List.count k.handle st.closed + 1
    rw [hclose st2, hcl]
  · unfold RegKey.delete_self
    rcases h : delete_hkey st k.handle [] rec with ⟨r, st2⟩
    rfl

/-- C3: a caller-supplied path with an embedded nul makes `open`, `create`
and `delete` fail with the `InvalidNul` encoding error before any store
primitive runs: the store state is returned unchanged, so no key is touched
and no native handle is acquired. -/
theorem invalid_nul_rejected_before_store (st : Store) (k : RegKey) (p : String)
    (sec : Security) (rec : Bool) (h : (encodeStr p).contains 0 = true) :
    RegKey.openKey st k p sec = (.error .InvalidNul, st)
    ∧ RegKey.create st k p sec = (.error .InvalidNul, st)
    ∧ RegKey.delete st k p rec = (.error .InvalidNul, st) := by
  have h0 : 0 ∈ encodeStr p := by simpa [List.contains] using h
  unfold RegKey.openKey RegKey.create RegKey.delete
  simp [tryIntoU16, h0]

/-- C3 witness: the path `"a\x00b"` has an embedded nul, and `open` on the
sample store rejects it with `InvalidNul`, returning the store unchanged. -/
theorem invalid_nul_rejected_before_store_witness :
    (encodeStr "a\x00b").contains 0 = true
    ∧ RegKey.openKey sampleStore rootKey "a\x00b" 3 = (.error .InvalidNul, sampleStore) :=
  ⟨by decide,
    (invalid_nul_rejected_before_store sampleStore rootKey "a\x00b" 3 false (by decide)).1⟩

/-- C9: the public iterator constructors `keys` and `values` return the
iterator directly — their result type has no error case — and the underlying
construction always succeeds, so the asserted-unreachable panic branch is
never taken: every call yields the iterator positioned at index 0 over the
borrowed parent handle. -/
theorem iterators_never_error (k : RegKey) :
    RegKey.keys k = PanicOr.ok ⟨k.handle, 0, false⟩
    ∧ RegKey.values k = PanicOr.ok ⟨k.handle, 0, false⟩
    ∧ Keys.new k = .ok ⟨k.handle, 0, false⟩
    ∧ Values.new k = .ok ⟨k.handle, 0, false⟩ := by
  exact ⟨rfl, rfl, rfl, rfl⟩

/-- C10: `Infallible` is uninhabited, so `Error.fromInfallible` is never
invoked on any value and the unreachable branch is genuinely unreachable;
consequently `open` instantiated at a path type with infallible conversion
never reaches an error-conversion branch and in particular never produces the
encoding error. -/
theorem infallible_conversion_unreachable :
    (∀ i : Infallible, False)
    ∧ (∀ (st : Store) (k : RegKey) (p : U16CString) (sec : Security),
        (RegKey.openKeyU16 st k p sec).1 ≠ .error Error.InvalidNul
        ∧ RegKey.openKeyU16 st k p sec
            = ((open_hkey st k.handle p sec).1.map fun h => ⟨h, p⟩,
                (open_hkey st k.handle p sec).2)) := by
  constructor
  · intro i
    exact nomatch i
  · intro st k p sec
    have hne := open_hkey_ne_invalidNul st k.handle p sec
    constructor
    · unfold RegKey.openKeyU16 tryIntoU16Self
      dsimp only
      rcases h : open_hkey st k.handle p sec with ⟨r, st2⟩
      rw [h] at hne
      cases r with
      | error a => simpa [Except.map] using hne
      | ok v => simp [Except.map]
    · rfl

/-- C1: every nonzero raw status is classified by the shared translation into
exactly one of `NotFound`, `PermissionDenied` or `Unknown` — the mapping is
total, and the three outcomes are pairwise distinct — the resulting error
carries the attempted path string, the placeholder `"<unknown>"` standing in
when the path cannot be decoded; and every operation that receives a nonzero
status (`open_hkey` behind `open`, `create_hkey` behind `create`,
`delete_hkey` behind `delete` and `delete_self`, and `open_current_user`)
builds its error through exactly this translation. -/
theorem status_classification_total (code : Nat) (p : U16CString) (hc : code ≠ 0) :
    (mapStatus code (decodeOrUnknown p) = .NotFound (decodeOrUnknown p) code
      ∨ mapStatus code (decodeOrUnknown p) = .PermissionDenied (decodeOrUnknown p) code
      ∨ mapStatus code (decodeOrUnknown p) = .Unknown (decodeOrUnknown p) code)
    ∧ (∀ s : String,
        Error.NotFound s code ≠ Error.PermissionDenied s code
        ∧ Error.NotFound s code ≠ Error.Unknown s code
        ∧ Error.PermissionDenied s code ≠ Error.Unknown s code)
    ∧ (decodeU16 p = none → decodeOrUnknown p = "<unknown>")
    ∧ (∀ (st : Store) (base : Nat) (sec : Security),
        (st.openPath base p sec).1 = .error code →
          (open_hkey st base p sec).1 = .error (mapStatus code (decodeOrUnknown p)))
    ∧ (∀ (st : Store) (base : Nat) (sec : Security),
        (st.createPath base p sec).1 = .error code →
          (create_hkey st base p sec).1 = .error (mapStatus code (decodeOrUnknown p)))
    ∧ (∀ (st : Store) (base : Nat) (rec : Bool),
        (if rec then st.deleteTree base p else st.deletePath base p).1 = .error code →
          (delete_hkey st base p rec).1 = .error (mapStatus code (decodeOrUnknown p)))
    ∧ (∀ (st : Store) (sec : Security), st.cuFail sec = some code →
        (RegKey.open_current_user st sec).1
          = .error (mapStatus code "<current user>")) := by
  refine ⟨?_, ?_, decodeOrUnknown_of_fail p, ?_, ?_, ?_, ?_⟩
  · unfold mapStatus
    cases h : ioErrorKind code <;> simp
  · intro s
    refine ⟨?_, ?_, ?_⟩ <;> simp
  · intro st base sec h
    unfold open_hkey
    rcases hp : st.openPath base p sec with ⟨r, st2⟩
    rw [hp] at h
    cases r with
    | error c => simp_all
    | ok v => simp at h
  · intro st base sec h
    unfold create_hkey
    rcases hp : st.createPath base p sec with ⟨r, st2⟩
    rw [hp] at h
    cases r with
    | error c => simp_all
    | ok v => simp at h
  · intro st base rec h
    unfold delete_hkey
    rcases hp : (if rec then st.deleteTree base p else st.deletePath base p)
      with ⟨r, st2⟩
    rw [hp] at h
    cases r with
    | error c => simp_all
    | ok v => simp at h
  · intro st sec h
    unfold RegKey.open_current_user Store.openCurrentUser
    rw [h]

/-- C1 witness: the code 7 is nonzero and, on the undecodable path consisting
of the lone surrogate unit 55296, is classified with the placeholder path. -/
theorem status_classification_total_witness :
    (7 : Nat) ≠ 0
    ∧ (mapStatus 7 (decodeOrUnknown [55296])
          = .NotFound (decodeOrUnknown [55296]) 7
      ∨ mapStatus 7 (decodeOrUnknown [55296])
          = .PermissionDenied (decodeOrUnknown [55296]) 7
      ∨ mapStatus 7 (decodeOrUnknown [55296])
          = .Unknown (decodeOrUnknown [55296]) 7) :=
  ⟨by decide, (status_classification_total 7 [55296] (by decide)).1⟩

/-- A valid path string converts successfully to its encoded units. -/
theorem tryIntoU16_ok (p : String) (hnul : (encodeStr p).contains 0 = false) :
    tryIntoU16 p = .ok (encodeStr p) := by
  unfold tryIntoU16
  rw [hnul]
  simp

/-- C4: on an existing, delete-granted path, non-recursive delete succeeds
exactly when the key has no children, removing just that key; with at least
one child it fails with the native not-empty status surfaced through the
shared mapping as `Unknown` — an error that is never of the `NotFound`
class. -/
theorem delete_nonrecursive_not_empty (st : Store) (k : RegKey) (p : String)
    (bp : AbsPath)
    (hnul : (encodeStr p).contains 0 = false)
    (hb : st.lookupHandle k.handle = some bp)
    (hex : st.keys.contains (bp ++ splitPath (encodeStr p)) = true)
    (hgr : st.delGranted (bp ++ splitPath (encodeStr p)) = true) :
    (st.hasChild (bp ++ splitPath (encodeStr p)) = false →
      RegKey.delete st k p false
        = (.ok (),
           { st with
             keys := st.keys.filter (fun q => !(q == bp ++ splitPath (encodeStr p))) }))
    ∧ (st.hasChild (bp ++ splitPath (encodeStr p)) = true →
      (RegKey.delete st k p false).1
        = .error (.Unknown p statusNotEmpty)
      ∧ ∀ (s : String) (c : Nat),
          (RegKey.delete st k p false).1 ≠ .error (.NotFound s c)) := by
  have hok := tryIntoU16_ok p hnul
  have hmem : bp ++ splitPath (encodeStr p) ∈ st.keys := by simpa using hex
  constructor
  · intro hnc
    simp [RegKey.delete, hok, delete_hkey, Store.deletePath, hb, hmem, hgr, hnc]
  · intro hc
    have hmap : ∀ s : String, mapStatus statusNotEmpty s
        = .Unknown s statusNotEmpty := fun s => rfl
    have hres : (RegKey.delete st k p false).1
        = .error (.Unknown p statusNotEmpty) := by
      simp [RegKey.delete, hok, delete_hkey, Store.deletePath, hb, hmem, hgr, hc,
        hmap, decodeOrUnknown_encode]
    refine ⟨hres, ?_⟩
    intro s c
    rw [hres]
    simp

/-- C4 witness: in the sample store the key `a` exists, is delete-granted and
has the child `a\b`, so non-recursive delete fails with the not-empty status
surfaced as `Unknown`. -/
theorem delete_nonrecursive_not_empty_witness :
    (encodeStr "a").contains 0 = false
    ∧ sampleStore.lookupHandle rootKey.handle = some []
    ∧ sampleStore.keys.contains ([] ++ splitPath (encodeStr "a")) = true
    ∧ sampleStore.delGranted ([] ++ splitPath (encodeStr "a")) = true
    ∧ sampleStore.hasChild ([] ++ splitPath (encodeStr "a")) = true
    ∧ (RegKey.delete sampleStore rootKey "a" false).1
        = .error (.Unknown "a" statusNotEmpty) :=
  ⟨by decide, by decide, by decide, by decide, by decide,
    ((delete_nonrecursive_not_empty sampleStore rootKey "a" []
      (by decide) (by decide) (by decide) (by decide)).2 (by decide)).1⟩

/-- Opening a path that does not exist in the store fails with the not-found
status classified by the shared translation. -/
theorem open_hkey_not_found (st : Store) (b : Nat) (u : U16CString) (sec : Security)
    (bp : AbsPath) (hb : st.lookupHandle b = some bp)
    (hnot : (bp ++ splitPath u) ∉ st.keys) :
    open_hkey st b u sec = (.error (mapStatus statusNotFound (decodeOrUnknown u)), st) := by
  unfold open_hkey Store.openPath
  rw [hb]
  simp [hnot]

/-- C6: on an existing, delete-granted path, recursive delete issues the
single delete-subtree request — succeeding and removing the key together
with its whole subtree in one step — and afterwards opening the same path
fails with `NotFound` carrying that path, whatever access is requested. -/
theorem delete_recursive_then_open_not_found (st : Store) (k : RegKey) (p : String)
    (bp : AbsPath)
    (hnul : (encodeStr p).contains 0 = false)
    (hb : st.lookupHandle k.handle = some bp)
    (hex : st.keys.contains (bp ++ splitPath (encodeStr p)) = true)
    (hgr : st.delGranted (bp ++ splitPath (encodeStr p)) = true) :
    RegKey.delete st k p true
      = (.ok (),
         { st with
           keys := st.keys.filter (fun q => !(List.isPrefixOf (bp ++ splitPath (encodeStr p)) q)) })
    ∧ ∀ sec : Security,
        (RegKey.openKey (RegKey.delete st k p true).2 k p sec).1
          = .error (.NotFound p statusNotFound) := by
  have hok := tryIntoU16_ok p hnul
  have hmem : bp ++ splitPath (encodeStr p) ∈ st.keys := by simpa using hex
  have hpre : List.isPrefixOf (bp ++ splitPath (encodeStr p))
      (bp ++ splitPath (encodeStr p)) = true :=
    List.isPrefixOf_iff_prefix.mpr (List.prefix_refl _)
  have hdel : RegKey.delete st k p true
      = (.ok (),
         { st with
           keys := st.keys.filter (fun q => !(List.isPrefixOf (bp ++ splitPath (encodeStr p)) q)) }) := by
    simp [RegKey.delete, hok, delete_hkey, Store.deleteTree, hb, hmem, hgr]
  refine ⟨hdel, ?_⟩
  intro sec
  rw [hdel]
  have hnotmem : bp ++ splitPath (encodeStr p) ∉
      List.filter (fun q => !(List.isPrefixOf (bp ++ splitPath (encodeStr p)) q)) st.keys := by
    intro hm
    have hfil := (List.mem_filter.mp hm).2
    rw [hpre] at hfil
    simp at hfil
  have hb2 : Store.lookupHandle
      { st with
        keys := st.keys.filter (fun q => !(List.isPrefixOf (bp ++ splitPath (encodeStr p)) q)) }
      k.handle = some bp := hb
  have hopen := open_hkey_not_found _ k.handle (encodeStr p) sec bp hb2 hnotmem
  have hmap : ∀ s : String, mapStatus statusNotFound s
      = .NotFound s statusNotFound := fun s => rfl
  simp [RegKey.openKey, hok, hopen, hmap, decodeOrUnknown_encode, Except.map]

/-- C6 witness: recursively deleting `a` from the sample store succeeds, and
reopening `a` afterwards fails with `NotFound`. -/
theorem delete_recursive_then_open_not_found_witness :
    (encodeStr "a").contains 0 = false
    ∧ sampleStore.keys.contains ([] ++ splitPath (encodeStr "a")) = true
    ∧ (RegKey.openKey (RegKey.delete sampleStore rootKey "a" true).2
        rootKey "a" 3).1 = .error (.NotFound "a" statusNotFound) :=
  ⟨by decide, by decide,
    (delete_recursive_then_open_not_found sampleStore rootKey "a" []
      (by decide) (by decide) (by decide) (by decide)).2 3⟩

/-- The final key of a create call is always in the resulting key set. -/
theorem keys_contains_after_create (keys : List AbsPath) (bp segs : AbsPath) :
    ((keys ++ (prefixChain bp segs).filter fun q => !keys.contains q).contains
      (bp ++ segs)) = true := by
  have habs : bp ++ segs ∈ prefixChain bp segs := by
    unfold prefixChain
    refine List.mem_map.mpr ⟨segs.length, ?_, ?_⟩
    · simp
    · simp
  by_cases hmem : (bp ++ segs) ∈ keys
  · simp [List.contains, List.elem_eq_mem, hmem]
  · simp only [List.contains, List.elem_eq_mem, List.mem_append, List.mem_filter,
      Bool.not_eq_eq_eq_not, Bool.not_true, decide_eq_false_iff_not, decide_eq_true_eq]
    exact Or.inr ⟨habs, hmem⟩

/-- The create primitive on a live base with granted access: a fresh handle at
the resolved path, the missing prefix keys materialised. -/
theorem create_hkey_success (st : Store) (b : Nat) (u : U16CString) (sec : Security)
    (bp : AbsPath) (hb : st.lookupHandle b = some bp)
    (hgr : st.granted (bp ++ splitPath u) sec = true) :
    create_hkey st b u sec
      = (.ok st.nextHandle,
         { st with
           keys := st.keys
             ++ (prefixChain bp (splitPath u)).filter (fun q => !st.keys.contains q),
           handles := (st.nextHandle, bp ++ splitPath u) :: st.handles,
           nextHandle := st.nextHandle + 1 }) := by
  unfold create_hkey Store.createPath
  rw [hb]
  dsimp only
  rw [if_pos hgr]

/-- The open primitive on a live base, an existing path and granted access:
a fresh handle at the resolved path, the store only extended by it. -/
theorem open_hkey_success (st : Store) (b : Nat) (u : U16CString) (sec : Security)
    (bp : AbsPath) (hb : st.lookupHandle b = some bp)
    (hcont : st.keys.contains (bp ++ splitPath u) = true)
    (hgr : st.granted (bp ++ splitPath u) sec = true) :
    open_hkey st b u sec
      = (.ok st.nextHandle,
         { st with handles := (st.nextHandle, bp ++ splitPath u) :: st.handles,
                   nextHandle := st.nextHandle + 1 }) := by
  unfold open_hkey Store.openPath
  rw [hb]
  dsimp only
  rw [if_pos hcont, if_pos hgr]

/-- C7: create is idempotent on existing keys: when the path (and every
intermediate prefix) already exists and access is granted, create succeeds,
hands back a handle resolving to the existing key, and persists nothing —
the key set and the value set are exactly as before. -/
theorem create_idempotent_on_existing (st : Store) (k : RegKey) (p : String)
    (sec : Security) (bp : AbsPath)
    (hnul : (encodeStr p).contains 0 = false)
    (hb : st.lookupHandle k.handle = some bp)
    (hall : ∀ q ∈ prefixChain bp (splitPath (encodeStr p)), q ∈ st.keys)
    (hgr : st.granted (bp ++ splitPath (encodeStr p)) sec = true) :
    ∃ k1 : RegKey,
      (RegKey.create st k p sec).1 = .ok k1
      ∧ k1.path = encodeStr p
      ∧ (bp ++ splitPath (encodeStr p)) ∈ st.keys
      ∧ (RegKey.create st k p sec).2.keys = st.keys
      ∧ (RegKey.create st k p sec).2.vals = st.vals
      ∧ (RegKey.create st k p sec).2.lookupHandle k1.handle
          = some (bp ++ splitPath (encodeStr p)) := by
  have hok := tryIntoU16_ok p hnul
  have habs : bp ++ splitPath (encodeStr p) ∈ prefixChain bp (splitPath (encodeStr p)) := by
    unfold prefixChain
    refine List.mem_map.mpr ⟨(splitPath (encodeStr p)).length, ?_, ?_⟩
    · simp
    · simp
  have hfresh : (prefixChain bp (splitPath (encodeStr p))).filter
      (fun q => !st.keys.contains q) = [] := by
    rw [List.filter_eq_nil_iff]
    intro q hq
    simp [List.contains, List.elem_eq_mem, hall q hq]
  have hcr := create_hkey_success st k.handle (encodeStr p) sec bp hb hgr
  rw [hfresh] at hcr
  have hcr2 : RegKey.create st k p sec
      = (.ok ⟨st.nextHandle, encodeStr p⟩,
         { st with
           keys := st.keys ++ [],
           handles := (st.nextHandle, bp ++ splitPath (encodeStr p)) :: st.handles,
           nextHandle := st.nextHandle + 1 }) := by
    simp only [RegKey.create, hok, hcr, Except.map]
  refine ⟨⟨st.nextHandle, encodeStr p⟩, ?_, rfl, hall _ habs, ?_, ?_, ?_⟩
  · rw [hcr2]
  · rw [hcr2]
    simp
  · rw [hcr2]
  · rw [hcr2]
    simp [Store.lookupHandle]

/-- C7 witness: the key `a\b` of the sample store exists with all its
prefixes, so create on it succeeds, resolves to the existing key and leaves
the key and value sets unchanged. -/
theorem create_idempotent_on_existing_witness :
    (encodeStr "a\\b").contains 0 = false
    ∧ (∀ q ∈ prefixChain [] (splitPath (encodeStr "a\\b")), q ∈ sampleStore.keys)
    ∧ (∃ k1 : RegKey,
        (RegKey.create sampleStore rootKey "a\\b" 3).1 = .ok k1
        ∧ k1.path = encodeStr "a\\b"
        ∧ ([] ++ splitPath (encodeStr "a\\b")) ∈ sampleStore.keys
        ∧ (RegKey.create sampleStore rootKey "a\\b" 3).2.keys = sampleStore.keys
        ∧ (RegKey.create sampleStore rootKey "a\\b" 3).2.vals = sampleStore.vals
        ∧ (RegKey.create sampleStore rootKey "a\\b" 3).2.lookupHandle k1.handle
            = some ([] ++ splitPath (encodeStr "a\\b"))) :=
  ⟨by decide, by decide,
    create_idempotent_on_existing sampleStore rootKey "a\\b" 3 []
      (by decide) (by decide) (by decide) (by decide)⟩

/-- C5: on a valid, access-granted path under a live base key, create with
write access followed by open with read access succeeds, and the key handle
returned by open records the converted path and renders exactly the
caller's path string through the diagnostic Display implementation. -/
theorem create_then_open_renders_path (st : Store) (k : RegKey) (p : String)
    (secW secR : Security) (bp : AbsPath)
    (hnul : (encodeStr p).contains 0 = false)
    (hwf : st.wfHandles)
    (hb : st.lookupHandle k.handle = some bp)
    (hgw : st.granted (bp ++ splitPath (encodeStr p)) secW = true)
    (hgr : st.granted (bp ++ splitPath (encodeStr p)) secR = true) :
    ∃ k1 k2 : RegKey,
      (RegKey.create st k p secW).1 = .ok k1
      ∧ (RegKey.openKey (RegKey.create st k p secW).2 k p secR).1 = .ok k2
      ∧ k2.path = encodeStr p
      ∧ k2.display = p := by
  have hok := tryIntoU16_ok p hnul
  have hne : k.handle ≠ st.nextHandle :=
    Nat.ne_of_lt (lookupHandle_lt st k.handle bp hwf hb)
  have hcr := create_hkey_success st k.handle (encodeStr p) secW bp hb hgw
  have hcr2 : RegKey.create st k p secW
      = (.ok ⟨st.nextHandle, encodeStr p⟩,
         { st with
           keys := st.keys
             ++ (prefixChain bp (splitPath (encodeStr p))).filter
                  (fun q => !st.keys.contains q),
           handles := (st.nextHandle, bp ++ splitPath (encodeStr p)) :: st.handles,
           nextHandle := st.nextHandle + 1 }) := by
    simp only [RegKey.create, hok, hcr, Except.map]
  have hb1 : Store.lookupHandle
      { st with
        keys := st.keys
          ++ (prefixChain bp (splitPath (encodeStr p))).filter
               (fun q => !st.keys.contains q),
        handles := (st.nextHandle, bp ++ splitPath (encodeStr p)) :: st.handles,
        nextHandle := st.nextHandle + 1 } k.handle = some bp := by
    rw [lookupHandle_prepend st st.nextHandle k.handle
      (bp ++ splitPath (encodeStr p)) hne _ st.vals]
    exact hb
  have hcont1 : ({ st with
      keys := st.keys
        ++ (prefixChain bp (splitPath (encodeStr p))).filter
             (fun q => !st.keys.contains q),
      handles := (st.nextHandle, bp ++ splitPath (encodeStr p)) :: st.handles,
      nextHandle := st.nextHandle + 1 } : Store).keys.contains
      (bp ++ splitPath (encodeStr p)) = true :=
    keys_contains_after_create st.keys bp (splitPath (encodeStr p))
  have hop := open_hkey_success
    { st with
      keys := st.keys
        ++ (prefixChain bp (splitPath (encodeStr p))).filter
             (fun q => !st.keys.contains q),
      handles := (st.nextHandle, bp ++ splitPath (encodeStr p)) :: st.handles,
      nextHandle := st.nextHandle + 1 }
    k.handle (encodeStr p) secR bp hb1 hcont1 hgr
  refine ⟨⟨st.nextHandle, encodeStr p⟩, ⟨st.nextHandle + 1, encodeStr p⟩, ?_, ?_, rfl,
    decodeLossy_encode p⟩
  · rw [hcr2]
  · rw [hcr2]
    simp only [RegKey.openKey, hok, hop, Except.map]

/-- C5 witness: on the sample store, creating `c` under the root with access
mask 2 and then opening it with access mask 1 succeeds, and the opened key
displays `c`. -/
theorem create_then_open_renders_path_witness :
    (encodeStr "c").contains 0 = false
    ∧ sampleStore.wfHandles
    ∧ (∃ k1 k2 : RegKey,
        (RegKey.create sampleStore rootKey "c" 2).1 = .ok k1
        ∧ (RegKey.openKey (RegKey.create sampleStore rootKey "c" 2).2
            rootKey "c" 1).1 = .ok k2
        ∧ k2.path = encodeStr "c"
        ∧ k2.display = "c") :=
  ⟨by decide, by decide,
    create_then_open_renders_path sampleStore rootKey "c" 2 1 []
      (by decide) (by decide) (by decide) (by decide) (by decide)⟩

/-- Handle lookup only depends on the handle table. -/
theorem lookupHandle_congr (st st2 : Store) (h : Nat) (heq : st2.handles = st.handles) :
    st2.lookupHandle h = st.lookupHandle h := by
  unfold Store.lookupHandle
  rw [heq]

/-- The query-value primitive leaves the handle table unchanged. -/
theorem queryValue_handles (st : Store) (b : Nat) (n : U16CString) :
    (st.queryValue b n).2.handles = st.handles := by
  unfold Store.queryValue
  cases h : st.lookupHandle b
  · rfl
  · dsimp only
    split <;> rfl

/-- The set-value primitive leaves the handle table unchanged. -/
theorem setValue_handles (st : Store) (b : Nat) (n : U16CString) (d : ValData) :
    (st.setValue b n d).2.handles = st.handles := by
  unfold Store.setValue
  cases h : st.lookupHandle b <;> rfl

/-- The delete-value primitive leaves the handle table unchanged. -/
theorem deleteValue_handles (st : Store) (b : Nat) (n : U16CString) :
    (st.deleteValue b n).2.handles = st.handles := by
  unfold Store.deleteValue
  cases h : st.lookupHandle b
  · rfl
  · dsimp only
    split <;> rfl

/-- The open primitive preserves the lookup of every live handle. -/
theorem openPath_preserves_lookup (st : Store) (b : Nat) (u : U16CString)
    (sec : Security) (h : Nat) (q : AbsPath) (hwf : st.wfHandles)
    (hl : st.lookupHandle h = some q) :
    (st.openPath b u sec).2.lookupHandle h = some q := by
  have hne : h ≠ st.nextHandle := Nat.ne_of_lt (lookupHandle_lt st h q hwf hl)
  unfold Store.openPath
  cases hB : st.lookupHandle b
  · exact hl
  · dsimp only
    split
    · split
      · exact (lookupHandle_prepend st st.nextHandle h _ hne st.keys st.vals).trans hl
      · exact hl
    · exact hl

/-- The create primitive preserves the lookup of every live handle. -/
theorem createPath_preserves_lookup (st : Store) (b : Nat) (u : U16CString)
    (sec : Security) (h : Nat) (q : AbsPath) (hwf : st.wfHandles)
    (hl : st.lookupHandle h = some q) :
    (st.createPath b u sec).2.lookupHandle h = some q := by
  have hne : h ≠ st.nextHandle := Nat.ne_of_lt (lookupHandle_lt st h q hwf hl)
  unfold Store.createPath
  cases hB : st.lookupHandle b
  · exact hl
  · dsimp only
    split
    · exact (lookupHandle_prepend st st.nextHandle h _ hne _ st.vals).trans hl
    · exact hl

/-- `open_hkey` returns exactly the store the open primitive returns. -/
theorem open_hkey_state (st : Store) (b : Nat) (u : U16CString) (sec : Security) :
    (open_hkey st b u sec).2 = (st.openPath b u sec).2 := by
  unfold open_hkey
  rcases h : st.openPath b u sec with ⟨r, st2⟩
  cases r <;> rfl

/-- `create_hkey` returns exactly the store the create primitive returns. -/
theorem create_hkey_state (st : Store) (b : Nat) (u : U16CString) (sec : Security) :
    (create_hkey st b u sec).2 = (st.createPath b u sec).2 := by
  unfold create_hkey
  rcases h : st.createPath b u sec with ⟨r, st2⟩
  cases r <;> rfl

/-- `delete_hkey` returns the store of the dispatched delete primitive. -/
theorem delete_hkey_state (st : Store) (b : Nat) (u : U16CString) (rec : Bool) :
    (delete_hkey st b u rec).2
      = (if rec then st.deleteTree b u else st.deletePath b u).2 := by
  unfold delete_hkey
  rcases h : (if rec then st.deleteTree b u else st.deletePath b u) with ⟨r, st2⟩
  cases r <;> rfl

/-- An ok result of the open primitive is the allocation counter. -/
theorem openPath_ok_handle (st : Store) (b : Nat) (u : U16CString) (sec : Security)
    (hv : Nat) (h : (st.openPath b u sec).1 = .ok hv) : hv = st.nextHandle := by
  unfold Store.openPath at h
  cases hB : st.lookupHandle b <;> rw [hB] at h
  · simp at h
  · dsimp only at h
    split at h
    · split at h
      · simpa using h.symm
      · simp at h
    · simp at h

/-- An ok result of the create primitive is the allocation counter. -/
theorem createPath_ok_handle (st : Store) (b : Nat) (u : U16CString) (sec : Security)
    (hv : Nat) (h : (st.createPath b u sec).1 = .ok hv) : hv = st.nextHandle := by
  unfold Store.createPath at h
  cases hB : st.lookupHandle b <;> rw [hB] at h
  · simp at h
  · dsimp only at h
    split at h
    · simpa using h.symm
    · simp at h

/-- An ok result of `open_hkey` is the allocation counter. -/
theorem open_hkey_ok_handle (st : Store) (b : Nat) (u : U16CString) (sec : Security)
    (hv : Nat) (h : (open_hkey st b u sec).1 = .ok hv) : hv = st.nextHandle := by
  unfold open_hkey at h
  rcases hp : st.openPath b u sec with ⟨r, st2⟩
  rw [hp] at h
  cases r with
  | ok v =>
    have hveq : v = hv := by simpa using h
    subst hveq
    exact openPath_ok_handle st b u sec v (by rw [hp])
  | error c => simp at h

/-- An ok result of `create_hkey` is the allocation counter. -/
theorem create_hkey_ok_handle (st : Store) (b : Nat) (u : U16CString) (sec : Security)
    (hv : Nat) (h : (create_hkey st b u sec).1 = .ok hv) : hv = st.nextHandle := by
  unfold create_hkey at h
  rcases hp : st.createPath b u sec with ⟨r, st2⟩
  rw [hp] at h
  cases r with
  | ok v =>
    have hveq : v = hv := by simpa using h
    subst hveq
    exact createPath_ok_handle st b u sec v (by rw [hp])
  | error c => simp at h

/-- C8: every operation taken through a shared reference leaves the receiver
intact: after `open`, `create`, `delete`, `value`, `set_value` and
`delete_value` the receiver's native handle still resolves to the very same
key, only `open` and `create` produce new handles — always distinct from the
receiver's — and `keys`/`values` merely read the receiver's fields. -/
theorem shared_ref_ops_preserve_receiver (st : Store) (k : RegKey)
    (p name : String) (sec : Security) (rec : Bool) (d : ValData) (bp : AbsPath)
    (hwf : st.wfHandles) (hb : st.lookupHandle k.handle = some bp) :
    ((RegKey.openKey st k p sec).2.lookupHandle k.handle = some bp)
    ∧ ((RegKey.create st k p sec).2.lookupHandle k.handle = some bp)
    ∧ ((RegKey.delete st k p rec).2.lookupHandle k.handle = some bp)
    ∧ ((RegKey.value st k name).2.lookupHandle k.handle = some bp)
    ∧ ((RegKey.set_value st k name d).2.lookupHandle k.handle = some bp)
    ∧ ((RegKey.delete_value st k name).2.lookupHandle k.handle = some bp)
    ∧ (∀ k1 : RegKey, (RegKey.openKey st k p sec).1 = .ok k1 → k1.handle ≠ k.handle)
    ∧ (∀ k1 : RegKey, (RegKey.create st k p sec).1 = .ok k1 → k1.handle ≠ k.handle)
    ∧ RegKey.keys k = PanicOr.ok ⟨k.handle, 0, false⟩
    ∧ RegKey.values k = PanicOr.ok ⟨k.handle, 0, false⟩ := by
  have hlt : k.handle < st.nextHandle := lookupHandle_lt st k.handle bp hwf hb
  refine ⟨?_, ?_, ?_, ?_, ?_, ?_, ?_, ?_, rfl, rfl⟩
  · unfold RegKey.openKey
    cases htry : tryIntoU16 p with
    | error e => exact hb
    | ok u =>
      dsimp only
      rcases hp : open_hkey st k.handle u sec with ⟨r, st2⟩
      have hst2 : st2 = (st.openPath k.handle u sec).2 := by
        have hs := open_hkey_state st k.handle u sec
        rw [hp] at hs
        exact hs
      show st2.lookupHandle k.handle = some bp
      rw [hst2]
      exact openPath_preserves_lookup st k.handle u sec k.handle bp hwf hb
  · unfold RegKey.create
    cases htry : tryIntoU16 p with
    | error e => exact hb
    | ok u =>
      dsimp only
      rcases hp : create_hkey st k.handle u sec with ⟨r, st2⟩
      have hst2 : st2 = (st.createPath k.handle u sec).2 := by
        have hs := create_hkey_state st k.handle u sec
        rw [hp] at hs
        exact hs
      show st2.lookupHandle k.handle = some bp
      rw [hst2]
      exact createPath_preserves_lookup st k.handle u sec k.handle bp hwf hb
  · unfold RegKey.delete
    cases htry : tryIntoU16 p with
    | error e => exact hb
    | ok u =>
      dsimp only
      rw [delete_hkey_state]
      cases rec
      · rw [if_neg (by simp)]
        rw [lookupHandle_congr st _ k.handle (deletePath_frame st k.handle u).1]
        exact hb
      · rw [if_pos rfl]
        rw [lookupHandle_congr st _ k.handle (deleteTree_frame st k.handle u).1]
        exact hb
  · unfold RegKey.value
    cases htry : tryIntoU16 name with
    | error e => exact hb
    | ok n =>
      dsimp only
      rcases hq : st.queryValue k.handle n with ⟨r, st2⟩
      have hst2 : st2.lookupHandle k.handle = some bp := by
        have hh : st2.handles = st.handles := by
          have := queryValue_handles st k.handle n
          rw [hq] at this
          exact this
        rw [lookupHandle_congr st st2 k.handle hh]
        exact hb
      cases r <;> exact hst2
  · unfold RegKey.set_value
    cases htry : tryIntoU16 name with
    | error e => exact hb
    | ok n =>
      dsimp only
      rcases hq : st.setValue k.handle n d with ⟨r, st2⟩
      have hst2 : st2.lookupHandle k.handle = some bp := by
        have hh : st2.handles = st.handles := by
          have := setValue_handles st k.handle n d
          rw [hq] at this
          exact this
        rw [lookupHandle_congr st st2 k.handle hh]
        exact hb
      cases r <;> exact hst2
  · unfold RegKey.delete_value
    cases htry : tryIntoU16 name with
    | error e => exact hb
    | ok n =>
      dsimp only
      rcases hq : st.deleteValue k.handle n with ⟨r, st2⟩
      have hst2 : st2.lookupHandle k.handle = some bp := by
        have hh : st2.handles = st.handles := by
          have := deleteValue_handles st k.handle n
          rw [hq] at this
          exact this
        rw [lookupHandle_congr st st2 k.handle hh]
        exact hb
      cases r <;> exact hst2
  · intro k1
    unfold RegKey.openKey
    cases htry : tryIntoU16 p with
    | error e =>
      intro hk1
      simp at hk1
    | ok u =>
      dsimp only
      rcases hp : open_hkey st k.handle u sec with ⟨r, st2⟩
      cases r with
      | error c =>
        intro hk1
        simp [Except.map] at hk1
      | ok v =>
        intro hk1
        have hv : v = st.nextHandle :=
          open_hkey_ok_handle st k.handle u sec v (by rw [hp])
        have hk1e : k1 = ⟨v, u⟩ := by
          simpa [Except.map] using hk1.symm
        rw [hk1e]
        show v ≠ k.handle
        omega
  · intro k1
    unfold RegKey.create
    cases htry : tryIntoU16 p with
    | error e =>
      intro hk1
      simp at hk1
    | ok u =>
      dsimp only
      rcases hp : create_hkey st k.handle u sec with ⟨r, st2⟩
      cases r with
      | error c =>
        intro hk1
        simp [Except.map] at hk1
      | ok v =>
        intro hk1
        have hv : v = st.nextHandle :=
          create_hkey_ok_handle st k.handle u sec v (by rw [hp])
        have hk1e : k1 = ⟨v, u⟩ := by
          simpa [Except.map] using hk1.symm
        rw [hk1e]
        show v ≠ k.handle
        omega

/-- C8 witness: on the sample store, every shared-reference operation on the
live root key leaves its handle resolving to the root. -/
theorem shared_ref_ops_preserve_receiver_witness :
    sampleStore.wfHandles
    ∧ sampleStore.lookupHandle rootKey.handle = some []
    ∧ (RegKey.openKey sampleStore rootKey "a" 3).2.lookupHandle rootKey.handle
        = some [] :=
  ⟨by decide, by decide,
    (shared_ref_ops_preserve_receiver sampleStore rootKey "a" "v" 3 false
      ⟨1, []⟩ [] (by decide) (by decide)).1⟩

end Registry
